import Mathlib

/-!
# Verification of the trip-generation pipeline

Shallow embedding of the core of the `locations` repository:

* `app/utils.py` — haversine distance, greedy geographic ordering,
  prediction-list validation;
* `app/openai_client.py` — the bounded-retry completion call, response
  parsing, the trip / exclusion prediction operations and their
  conversation-state management;
* `app/routes.py` + `app/services.py` — assembly of a persisted trip
  attempt (`num_places`, `response_json`, per-location `order`).

Python floats used as geographic coordinates are modelled as rationals
(every float literal is a rational); the haversine distance itself is a
real number since it goes through `sin`/`cos`/`arcsin`/`sqrt`.
-/

set_option maxHeartbeats 1000000

namespace Locations

/-! ## JSON values (result of `json.loads`) -/

/-- A decoded JSON value, as produced by `json.loads`. -/
inductive JVal where
  | null
  | bool (b : Bool)
  | num (q : ℚ)
  | str (s : String)
  | arr (elems : List JVal)
  | obj (fields : List (String × JVal))

/-- The text returned by one successful completion: its Python `len`
together with the outcome of decoding it with `json.loads`
(`none` models a string that is not valid JSON, i.e. `json.loads`
raises `json.JSONDecodeError`). -/
structure ResponseText where
  len : ℕ
  decoded : Option JVal

/-! ## Raw location dictionaries and pydantic schemas -/

/-- A raw location dictionary that carries both coordinate keys: the
restriction of `RawDict` on which the ordering loop's key reads cannot
fail.  Optional fields model absent dictionary keys. -/
structure RawLoc where
  name : Option String
  description : Option String
  latitude : ℚ
  longitude : ℚ
  address : Option String
  city : Option String
  country : Option String
  ordIdx : Option ℤ
  deriving DecidableEq, Repr

/-- A raw location dictionary in full generality: every key may be
absent, including `latitude`/`longitude`.  `order_locations_by_distance`
reads those two keys from every record (raising `KeyError` when one is
missing), so the general validator pipeline is modelled over this type;
`RawLoc` is its coordinate-carrying restriction. -/
structure RawDict where
  name : Option String
  description : Option String
  latitude : Option ℚ
  longitude : Option ℚ
  address : Option String
  city : Option String
  country : Option String
  ordIdx : Option ℤ
  deriving DecidableEq, Repr

/-- Both coordinate keys are present on the record. -/
def HasCoords (r : RawDict) : Prop :=
  r.latitude ≠ none ∧ r.longitude ≠ none

instance (r : RawDict) : Decidable (HasCoords r) :=
  inferInstanceAs (Decidable (r.latitude ≠ none ∧ r.longitude ≠ none))

/-- Detail payload of an `HTTPException` raised by `app/utils.py`. -/
inductive HTTPDetail where
  | noLocations
  | invalidLocationData (firstRaw : RawLoc)
  | invalidLocationDict (firstRaw : RawDict)
  | validationError
  deriving DecidableEq, Repr

/-- A Python exception escaping (or returned as an HTTP failure by) the
modelled code paths. -/
inductive Failure where
  | typeError
  | nameError
  | keyError
  | valueError
  | chatGPTError
  | http (status : ℕ) (detail : HTTPDetail)
  deriving DecidableEq, Repr

/-- `app/schemas.py` `LocationCreate` after successful pydantic
validation. -/
structure LocationCreate where
  trip_id : Option ℤ
  name : String
  description : Option String
  latitude : ℚ
  longitude : ℚ
  address : Option String
  city : Option String
  country : Option String
  ordIdx : Option ℤ
  deriving DecidableEq, Repr

/-- Pydantic promotion `LocationCreate(trip_id=None, **location)`:
field-constraint checks of `app/schemas.py`. `none` models
`pydantic.ValidationError`. -/
def promoteLocation (r : RawLoc) : Option LocationCreate :=
  match r.name with
  | none => none
  | some n =>
    if 1 ≤ n.length ∧ n.length ≤ 100
        ∧ (∀ d ∈ r.description, d.length ≤ 1000)
        ∧ -90 ≤ r.latitude ∧ r.latitude ≤ 90
        ∧ -180 ≤ r.longitude ∧ r.longitude ≤ 180
        ∧ (∀ a ∈ r.address, a.length ≤ 255)
        ∧ (∀ c ∈ r.city, c.length ≤ 100)
        ∧ (∀ c ∈ r.country, c.length ≤ 100) then
      some ⟨none, n, r.description, r.latitude, r.longitude,
            r.address, r.city, r.country, r.ordIdx⟩
    else none

/-- The list comprehension in `validate_prediction_locations`: promote
every element, failing on the first `pydantic.ValidationError`. -/
def promoteList : List RawLoc → Option (List LocationCreate)
  | [] => some []
  | r :: rs =>
    match promoteLocation r, promoteList rs with
    | some l, some ls => some (l :: ls)
    | _, _ => none

/-! ## Haversine distance (`app/utils.py`) -/

open Real in
/-- `haversine_distance` from `app/utils.py`: great-circle distance in
kilometers on a sphere of radius 6371 km, degree inputs converted to
radians. -/
noncomputable def haversine_distance (lat1 lon1 lat2 lon2 : ℚ) : ℝ :=
  let R : ℝ := 6371
  let rlat1 : ℝ := (lat1 : ℝ) * π / 180
  let rlon1 : ℝ := (lon1 : ℝ) * π / 180
  let rlat2 : ℝ := (lat2 : ℝ) * π / 180
  let rlon2 : ℝ := (lon2 : ℝ) * π / 180
  let dlat := rlat2 - rlat1
  let dlon := rlon2 - rlon1
  let a := sin (dlat / 2) ^ 2 + cos rlat1 * cos rlat2 * sin (dlon / 2) ^ 2
  let c := 2 * arcsin (√a)
  R * c

/-- Haversine distance between two raw location dictionaries, reading
their `latitude`/`longitude` keys as `order_locations_by_distance`
does. -/
noncomputable def havRaw (a b : RawLoc) : ℝ :=
  haversine_distance a.latitude a.longitude b.latitude b.longitude

/-! ## Greedy nearest-neighbor ordering (`order_locations_by_distance`)

The ordering loop is developed generically over the element type `α`
and a distance function `d : α → α → β` into a linear order, and then
instantiated with `havRaw`. -/

section Ordering

variable {α β : Type} [DecidableEq α] [LinearOrder β]

/-- Python's `min(pairs, key=itemgetter(1))` over `(loc, f loc)` pairs
built from `best :: rest`: fold that replaces the current best only on
a strictly smaller key, hence keeping the first minimal element. -/
def selectClosest (f : α → β) : α → List α → α
  | best, [] => best
  | best, x :: xs =>
    if f x < f best then selectClosest f x xs else selectClosest f best xs

/-- The `while remaining:` loop of `order_locations_by_distance`: pick
the closest remaining element to `last`, append it, and remove its
first occurrence (`list.remove`) from `remaining`.  The fuel argument
is the length of `remaining`, so the recursion is structural. -/
def orderGo (d : α → α → β) : ℕ → α → List α → List α
  | 0, _, _ => []
  | _ + 1, _, [] => []
  | fuel + 1, last, r :: rs =>
    let c := selectClosest (fun x => d last x) r rs
    c :: orderGo d fuel c ((r :: rs).erase c)

/-- `order_locations_by_distance` generalized over the distance
function: empty input maps to empty output, otherwise the head is kept
as anchor and the rest is ordered greedily. -/
def orderBy (d : α → α → β) : List α → List α
  | [] => []
  | x :: xs => x :: orderGo d xs.length x xs

/-- Specification-side predicate (from the spec's words): `c` is the
element of `L` with minimal key `f`, ties broken by taking the first
minimal element — every element before `c` has a strictly larger key,
every element after it a larger-or-equal one. -/
def IsFirstMin (f : α → β) (c : α) (L : List α) : Prop :=
  ∃ l₁ l₂, L = l₁ ++ c :: l₂ ∧ (∀ x ∈ l₁, f c < f x) ∧ (∀ x ∈ l₂, f c ≤ f x)

/-- Specification-side relation (from the spec's words): `out` visits
`rem` by repeatedly selecting the not-yet-visited element closest to
the last-placed element (`last`), first minimal element on ties. -/
inductive GreedyChain (d : α → α → β) : α → List α → List α → Prop where
  | nil (last : α) : GreedyChain d last [] []
  | cons (last : α) (rem : List α) (c : α) (out : List α) :
      IsFirstMin (fun x => d last x) c rem →
      GreedyChain d c (rem.erase c) out →
      GreedyChain d last rem (c :: out)

omit [DecidableEq α] in
theorem isFirstMin_mem {f : α → β} {c : α} {L : List α}
    (h : IsFirstMin f c L) : c ∈ L := by
  obtain ⟨l₁, l₂, rfl, -, -⟩ := h
  exact List.mem_append.2 (Or.inr (List.mem_cons_self _ _))

omit [DecidableEq α] in
theorem selectClosest_isFirstMin (f : α → β) :
    ∀ (l : List α) (b : α), IsFirstMin f (selectClosest f b l) (b :: l) := by
  intro l
  induction l with
  | nil =>
    intro b
    exact ⟨[], [], rfl, by simp, by simp⟩
  | cons x xs ih =>
    intro b
    by_cases hlt : f x < f b
    · have hsel : selectClosest f b (x :: xs) = selectClosest f x xs := by
        simp [selectClosest, hlt]
      rw [hsel]
      obtain ⟨l₁, l₂, heq, h₁, h₂⟩ := ih x
      have hcx : f (selectClosest f x xs) ≤ f x := by
        cases l₁ with
        | nil =>
          have hx : x = selectClosest f x xs := by
            simpa using congrArg (fun t => t.head?) heq
          exact le_of_eq (congrArg f hx).symm
        | cons a l₁' =>
          have hax : x = a := by
            simpa using congrArg (fun t => t.head?) heq
          have := h₁ a (List.mem_cons_self _ _)
          rw [← hax] at this
          exact le_of_lt this
      refine ⟨b :: l₁, l₂, by simp [heq], ?_, h₂⟩
      intro y hy
      rcases List.mem_cons.1 hy with rfl | hy'
      · exact lt_of_le_of_lt hcx hlt
      · exact h₁ y hy'
    · have hsel : selectClosest f b (x :: xs) = selectClosest f b xs := by
        simp [selectClosest, hlt]
      rw [hsel]
      obtain ⟨l₁, l₂, heq, h₁, h₂⟩ := ih b
      generalize hc : selectClosest f b xs = c at heq h₁ h₂ ⊢
      cases l₁ with
      | nil =>
        have hcb : b = c := by
          simpa using congrArg (fun t => t.head?) heq
        have hl₂ : xs = l₂ := by
          have := congrArg List.tail heq
          simpa using this
        refine ⟨[], x :: xs, ?_, by simp, ?_⟩
        · simp [← hcb]
        · intro y hy
          rcases List.mem_cons.1 hy with rfl | hy'
          · rw [← hcb]
            exact le_of_not_lt hlt
          · exact h₂ y (hl₂ ▸ hy')
      | cons a l₁' =>
        have hab : b = a := by
          simpa using congrArg (fun t => t.head?) heq
        have hxs : xs = l₁' ++ c :: l₂ := by
          have := congrArg List.tail heq
          simpa using this
        have hcb : f c < f b := by
          have := h₁ a (List.mem_cons_self _ _)
          rw [← hab] at this
          exact this
        refine ⟨b :: x :: l₁', l₂, by simp [hxs], ?_, h₂⟩
        intro y hy
        rcases List.mem_cons.1 hy with rfl | hy'
        · exact hcb
        rcases List.mem_cons.1 hy' with rfl | hy''
        · exact lt_of_lt_of_le hcb (le_of_not_lt hlt)
        · exact h₁ y (List.mem_cons.2 (Or.inr hy''))

theorem orderGo_greedyChain (d : α → α → β) :
    ∀ (fuel : ℕ) (last : α) (rem : List α), rem.length = fuel →
      GreedyChain d last rem (orderGo d fuel last rem) := by
  intro fuel
  induction fuel with
  | zero =>
    intro last rem hlen
    obtain rfl := List.length_eq_zero.1 hlen
    exact GreedyChain.nil last
  | succ n ih =>
    intro last rem hlen
    match rem, hlen with
    | r :: rs, hlen =>
      have hsel := selectClosest_isFirstMin (fun x => d last x) rs r
      refine GreedyChain.cons last (r :: rs) _ _ hsel (ih _ _ ?_)
      have hmem : selectClosest (fun x => d last x) r rs ∈ r :: rs :=
        isFirstMin_mem hsel
      have := List.length_erase_of_mem hmem
      simp only [this]
      simpa using Nat.succ_injective hlen

theorem greedyChain_perm {d : α → α → β} :
    ∀ {last : α} {rem out : List α},
      GreedyChain d last rem out → out.Perm rem := by
  intro last rem out h
  induction h with
  | nil => exact List.Perm.refl []
  | cons last rem c out hfm _ ih =>
    exact (ih.cons c).trans (List.perm_cons_erase (isFirstMin_mem hfm)).symm

end Ordering

/-- `order_locations_by_distance` from `app/utils.py`, with the
haversine distance of the source baked in. -/
noncomputable def order_locations_by_distance : List RawLoc → List RawLoc :=
  orderBy havRaw

/-! ## `validate_prediction_locations` (`app/utils.py`) -/

/-- `validate_prediction_locations` restricted to records carrying both
coordinate keys (on that restriction the ordering loop's key reads
cannot raise): rejects an empty list with a 400 "No locations
generated" `HTTPException`, otherwise orders the list by geographic
distance and promotes every element to `LocationCreate`; a
`pydantic.ValidationError` becomes a 400 "Invalid location data"
`HTTPException` whose detail carries `prediction_locations_list[0]`,
the first element of the raw input list.  The unrestricted function,
including the `KeyError` path for records missing a coordinate key, is
`validate_prediction_locations_dict` below. -/
noncomputable def validate_prediction_locations :
    List RawLoc → Except Failure (List LocationCreate)
  | [] => .error (.http 400 .noLocations)
  | r :: rest =>
    match promoteList (order_locations_by_distance (r :: rest)) with
    | some ls => .ok ls
    | none => .error (.http 400 (.invalidLocationData r))

/-! ## The validator over general raw dictionaries

`order_locations_by_distance` runs before the `try` that wraps pydantic
promotion and reads `loc["latitude"]`/`loc["longitude"]` from every
record of a multi-element list, so a record missing one of those keys
raises an uncaught `KeyError` there.  The following definitions embed
the same source functions over `RawDict`, where those reads can
fail. -/

/-- The `distances` list comprehension of `order_locations_by_distance`
over raw dictionaries: pair each remaining record with its haversine
distance from the last-placed coordinates, reading
`loc["latitude"]` and `loc["longitude"]` left to right; the first
missing key raises `KeyError`. -/
noncomputable def distancesList (la lo : ℚ) :
    List RawDict → Except Failure (List (RawDict × ℝ))
  | [] => .ok []
  | x :: xs =>
    match x.latitude with
    | none => .error .keyError
    | some xla =>
      match x.longitude with
      | none => .error .keyError
      | some xlo =>
        match distancesList la lo xs with
        | .error e => .error e
        | .ok rest => .ok ((x, haversine_distance la lo xla xlo) :: rest)

/-- The `while remaining:` loop over raw dictionaries: read the
last-placed record's coordinate keys, build the distances list, pick
the pair with minimal distance (first minimal on ties, as Python's
`min(..., key=itemgetter(1))`), append its record and remove its first
occurrence from the remaining list.  The `.ok []` arm for an empty
distances list is unreachable: `distancesList` maps a non-empty list
to a non-empty list. -/
noncomputable def orderGoD : ℕ → RawDict → List RawDict → Except Failure (List RawDict)
  | 0, _, _ => .ok []
  | _ + 1, _, [] => .ok []
  | fuel + 1, last, r :: rs =>
    match last.latitude with
    | none => .error .keyError
    | some la =>
      match last.longitude with
      | none => .error .keyError
      | some lo =>
        match distancesList la lo (r :: rs) with
        | .error e => .error e
        | .ok [] => .ok []
        | .ok (p :: ps) =>
          match orderGoD fuel (selectClosest Prod.snd p ps).1
              ((r :: rs).erase (selectClosest Prod.snd p ps).1) with
          | .error e => .error e
          | .ok out => .ok ((selectClosest Prod.snd p ps).1 :: out)

/-- `order_locations_by_distance` over general raw dictionaries: empty
input maps to empty output, otherwise the head is the anchor and the
rest is ordered greedily; a record missing a coordinate key raises
`KeyError` (for a singleton list the loop body never runs and no key is
read). -/
noncomputable def order_locations_by_distance_dict :
    List RawDict → Except Failure (List RawDict)
  | [] => .ok []
  | x :: xs =>
    match orderGoD xs.length x xs with
    | .error e => .error e
    | .ok out => .ok (x :: out)

/-- Pydantic promotion `LocationCreate(trip_id=None, **location)` over a
general raw dictionary: a missing `name`, `latitude` or `longitude`
key is a `ValidationError`, as are the field-constraint violations of
`app/schemas.py`. -/
def promoteLocationD (r : RawDict) : Option LocationCreate :=
  match r.name, r.latitude, r.longitude with
  | some n, some la, some lo =>
    if 1 ≤ n.length ∧ n.length ≤ 100
        ∧ (∀ d ∈ r.description, d.length ≤ 1000)
        ∧ -90 ≤ la ∧ la ≤ 90
        ∧ -180 ≤ lo ∧ lo ≤ 180
        ∧ (∀ a ∈ r.address, a.length ≤ 255)
        ∧ (∀ c ∈ r.city, c.length ≤ 100)
        ∧ (∀ c ∈ r.country, c.length ≤ 100) then
      some ⟨none, n, r.description, la, lo,
            r.address, r.city, r.country, r.ordIdx⟩
    else none
  | _, _, _ => none

/-- The promotion list comprehension over general raw dictionaries,
failing on the first `pydantic.ValidationError`. -/
def promoteListD : List RawDict → Option (List LocationCreate)
  | [] => some []
  | r :: rs =>
    match promoteLocationD r, promoteListD rs with
    | some l, some ls => some (l :: ls)
    | _, _ => none

/-- `validate_prediction_locations` over general raw dictionaries:
empty-list check, then ordering (whose `KeyError` is raised outside the
`try` and propagates uncaught), then promotion, whose failure becomes
the 400 "Invalid location data" error carrying
`prediction_locations_list[0]`. -/
noncomputable def validate_prediction_locations_dict :
    List RawDict → Except Failure (List LocationCreate)
  | [] => .error (.http 400 .noLocations)
  | r :: rest =>
    match order_locations_by_distance_dict (r :: rest) with
    | .error e => .error e
    | .ok ordered =>
      match promoteListD ordered with
      | some ls => .ok ls
      | none => .error (.http 400 (.invalidLocationDict r))

/-! ## `parse_response` (`app/openai_client.py`) -/

/-- `parse_response`: `json.loads` the response text (a `None` response
raises an uncaught `TypeError`, since `json.loads` only accepts
strings and only `json.JSONDecodeError` is handled), then normalizes
the decoded value: an object with a `"locations"` key is replaced by
the value under that key, and a (remaining) object is wrapped into a
one-element list.  A `json.JSONDecodeError` is caught and yields the
empty list. -/
def parse_response (rt : Option ResponseText) : Except Failure JVal :=
  match rt with
  | none => .error .typeError
  | some r =>
    match r.decoded with
    | none => .ok (.arr [])
    | some v =>
      let v1 : JVal :=
        match v with
        | .obj fields =>
          match fields.lookup "locations" with
          | some inner => inner
          | none => .obj fields
        | _ => v
      match v1 with
      | .obj f2 => .ok (.arr [.obj f2])
      | _ => .ok v1

/-! ## Trip assembly (`app/routes.py` + `app/services.py`) -/

/-- One persisted trip attempt as assembled by the `create_trip` /
`exclude_locations_from_trip` routes: `num_places` and `response_json`
are taken from the raw prediction list, `locations` from the validated
and persisted `LocationCreate` rows. -/
structure TripAttempt where
  parent_id : Option ℕ
  num_places : ℕ
  response_json : List RawLoc
  trip_type : String
  locations : List LocationCreate
  deriving DecidableEq, Repr

/-- The per-location mutation loop of
`LocationService.create_locations_for_trip`: assign `trip_id` and the
1-based `order = i + 1` to each record. -/
def assignOrders (tripId : ℕ) : ℕ → List LocationCreate → List LocationCreate
  | _, [] => []
  | i, l :: ls =>
    { l with trip_id := some (tripId : ℤ), ordIdx := some ((i : ℤ) + 1) }
      :: assignOrders tripId (i + 1) ls

/-- `LocationService.create_locations_for_trip`: `if not trip_id: raise
ValueError`, then assign `trip_id` and 1-based `order` to each record
and persist. -/
def create_locations_for_trip (tripId : ℕ) (ls : List LocationCreate) :
    Except Failure (List LocationCreate) :=
  if tripId = 0 then .error .valueError
  else .ok (assignOrders tripId 0 ls)

/-- The trip-assembly core shared by `create_trip` and
`exclude_locations_from_trip` in `app/routes.py`: validate the raw
prediction list, create the trip row with
`num_places = len(prediction_locations_list)` and
`response_json = prediction_locations_list`, and persist the validated
locations for it. -/
noncomputable def create_trip_pipeline (tripId : ℕ) (parent : Option ℕ)
    (tripType : String) (pred : List RawLoc) : Except Failure TripAttempt :=
  match validate_prediction_locations pred with
  | .error e => .error e
  | .ok locs =>
    match create_locations_for_trip tripId locs with
    | .error e => .error e
    | .ok persisted => .ok ⟨parent, pred.length, pred, tripType, persisted⟩

/-! ## Conversation state (`OpenAIChatClientTrip`) -/

/-- The two system-prompt templates of `app/trip_prompts.py`. -/
inductive PromptKind where
  | severalPlaces
  | byPlace
  deriving DecidableEq, Repr

/-- `TRIP_TYPE.get(trip_type, TRIP_PROMPT_SEVERAL_PLACES)`: select the
system prompt by trip-type string, defaulting to the several-places
template. -/
def systemPromptFor (tripType : String) : PromptKind :=
  if tripType = "by_place" then .byPlace else .severalPlaces

/-- Content of one chat message, abstracting the f-string templates of
`app/openai_client.py`.  `tripRequest` records the request text, the
optional start location and the optional `num_places = n` suffix
(present only when `num_places` is truthy and the trip type is not
`several_places`); `orderHint` records the optional
`num_places = n` prefix of the third exclusion message. -/
inductive MsgContent where
  | systemPrompt (p : PromptKind)
  | tripRequest (text : String) (start : Option String) (numPlaces : Option ℕ)
  | prevTrip (payload : JVal)
  | excludeText (s : String)
  | orderHint (numPlaces : Option ℕ)

/-- One role-tagged chat message. -/
structure Msg where
  role : String
  content : MsgContent

/-- The message list of a freshly constructed `OpenAIChatClientTrip`:
the system prompt selected by trip type. -/
def sysMsg (tripType : String) : Msg :=
  ⟨"system", .systemPrompt (systemPromptFor tripType)⟩

/-! ## The bounded-retry completion call
(`get_completions_create_response`) -/

/-- The keyword arguments of one `client.chat.completions.create`
call. -/
structure CompletionRequest where
  model : String
  messages : List Msg
  response_format : String
  temperature : ℚ

/-- The request issued on every attempt of the retry loop. -/
def completionRequest (model : String) (msgs : List Msg) : CompletionRequest :=
  ⟨model, msgs, "json_object", 7 / 10⟩

/-- Outcome of one `completions.create` attempt, supplied by the
environment: a successful response text, a transient failure
(`RateLimitError`, `Timeout`, `APIConnectionError`, `APIError`) or a
non-retryable `ChatGPTError`. -/
inductive Outcome where
  | success (r : ResponseText)
  | transient
  | fatal

/-- How `get_completions_create_response` ends: a returned value
(`some` response or `None` after exhaustion / a non-retryable error),
or an uncaught `NameError` from reading the unbound local
`wait_time`. -/
inductive RetResult where
  | returned (r : Option ResponseText)
  | nameError

/-- Observable trace of one `get_completions_create_response` run: its
outcome, the `asyncio.sleep` durations in seconds, and the requests
issued, in order. -/
structure RunTrace where
  result : RetResult
  sleeps : List ℕ
  requests : List CompletionRequest

/-- Python truthiness test `num_places and len(result) < num_places`. -/
def isShortPy (np : Option ℕ) (len : ℕ) : Bool :=
  match np with
  | none => false
  | some n => decide (n ≠ 0) && decide (len < n)

/-- `wait_time = min(backoff_base * (2**attempt), max_wait)` with
`backoff_base = 1` and `max_wait = 8`. -/
def backoff (attempt : ℕ) : ℕ := min (1 * 2 ^ attempt) 8

/-- The `for attempt in range(max_retries)` loop of
`get_completions_create_response`.  `wt` is the function-local
`wait_time`, unbound (`none`) until the first transient-failure branch
assigns it; reading it while unbound raises `NameError`.  A short
successful response sleeps the stale `wait_time` and retries with the
same message list; a transient failure sleeps the freshly computed
backoff; a `ChatGPTError` returns `None` immediately. -/
def retryLoop (model : String) (np : Option ℕ) (msgs : List Msg)
    (script : ℕ → Outcome) :
    ℕ → ℕ → Option ℕ → List ℕ → List CompletionRequest → RunTrace
  | 0, _, _, sleeps, reqs => ⟨.returned none, sleeps, reqs⟩
  | fuel + 1, attempt, wt, sleeps, reqs =>
    let reqs' := reqs ++ [completionRequest model msgs]
    match script attempt with
    | .success r =>
      if isShortPy np r.len then
        match wt with
        | none => ⟨.nameError, sleeps, reqs'⟩
        | some w =>
          retryLoop model np msgs script fuel (attempt + 1) (some w)
            (sleeps ++ [w]) reqs'
      else ⟨.returned (some r), sleeps, reqs'⟩
    | .transient =>
      retryLoop model np msgs script fuel (attempt + 1) (some (backoff attempt))
        (sleeps ++ [backoff attempt]) reqs'
    | .fatal => ⟨.returned none, sleeps, reqs'⟩

/-- `get_completions_create_response` with `max_retries = 4`: run the
retry loop from attempt 0 with `wait_time` unbound. -/
def get_completions_create_response (model : String) (np : Option ℕ)
    (msgs : List Msg) (script : ℕ → Outcome) : RunTrace :=
  retryLoop model np msgs script 4 0 none [] []

/-! ## Trip and exclusion prediction operations -/

/-- `app/schemas.py` `TripCreateRequest`. -/
structure TripCreateRequest where
  request_text : String
  start_location : Option String
  num_places : Option ℕ

/-- The previous `Trip` row handed to
`get_exlude_locations_prediction`. -/
structure TripRec where
  id : ℕ
  response_json : JVal
  num_places : Option ℕ
  trip_type : String

/-- The `num_places = n` part of the user message composed by
`get_trip_prediction`: present when `trip.num_places` is truthy and
the trip type is not `several_places`. -/
def shownNumPlaces (np : Option ℕ) (tripType : String) : Option ℕ :=
  match np with
  | none => none
  | some n => if n ≠ 0 ∧ ¬tripType = "several_places" then some n else none

/-- The `num_places = n` part of the third user message composed by
`get_exlude_locations_prediction`: present when the previous trip's
`num_places` is truthy and its trip type is `by_place`. -/
def hintNumPlaces (prev : TripRec) : Option ℕ :=
  match prev.num_places with
  | none => none
  | some n => if n ≠ 0 ∧ prev.trip_type = "by_place" then some n else none

/-- The default model name of `OpenAIChatClientBase.__init__`. -/
def defaultModel : String := "gpt-3.5-turbo-1106"

/-- `get_trip_prediction`: append the composed user message, run the
bounded-retry call with `num_places=trip.num_places`, parse its result
(`parse_response(None)` raises `TypeError`; an uncaught `NameError`
from the retry loop propagates), catch only `ChatGPTError` as the
empty list, and in `finally` pop the last message when more than one
remains. -/
def get_trip_prediction (st : List Msg) (trip : TripCreateRequest)
    (tripType : String) (script : ℕ → Outcome) :
    Except Failure JVal × List Msg :=
  let st1 := st ++ [⟨"user",
    .tripRequest trip.request_text trip.start_location
      (shownNumPlaces trip.num_places tripType)⟩]
  let trace := get_completions_create_response defaultModel trip.num_places st1 script
  let res : Except Failure JVal :=
    match trace.result with
    | .nameError => .error .nameError
    | .returned rt => parse_response rt
  let res' : Except Failure JVal :=
    match res with
    | .error .chatGPTError => .ok (.arr [])
    | other => other
  (res', if st1.length > 1 then st1.dropLast else st1)

/-- `get_exlude_locations_prediction`: append the three user messages,
then call `self.get_completions_create_response()` — which omits the
required positional argument `num_places` and therefore raises
`TypeError` on every call; `except ChatGPTError` does not catch it, and
`finally` pops the last two messages when more than two remain. -/
def get_exlude_locations_prediction (st : List Msg) (prev : TripRec)
    (excludeTxt : String) : Except Failure JVal × List Msg :=
  let st1 := st ++ [⟨"user", .prevTrip prev.response_json⟩,
    ⟨"user", .excludeText excludeTxt⟩,
    ⟨"user", .orderHint (hintNumPlaces prev)⟩]
  let res : Except Failure JVal := .error .typeError
  (res, if st1.length > 2 then st1.dropLast.dropLast else st1)

/-! ## Sequences of client operations (conversation-state invariant) -/

/-- One public operation on an `OpenAIChatClientTrip` instance. -/
inductive ClientOp where
  | predict (trip : TripCreateRequest) (tripType : String) (script : ℕ → Outcome)
  | exclude (prev : TripRec) (excludeTxt : String)

/-- The message-list effect of one client operation. -/
def clientStep (st : List Msg) : ClientOp → List Msg
  | .predict trip tripType script => (get_trip_prediction st trip tripType script).2
  | .exclude prev excludeTxt => (get_exlude_locations_prediction st prev excludeTxt).2

/-- Run a sequence of client operations from an initial message
list. -/
def runClient (init : List Msg) (ops : List ClientOp) : List Msg :=
  ops.foldl clientStep init

/-! ## Helper lemmas -/

theorem orderBy_perm {α β : Type} [DecidableEq α] [LinearOrder β]
    (d : α → α → β) (l : List α) : (orderBy d l).Perm l := by
  cases l with
  | nil => exact List.Perm.refl _
  | cons x xs =>
    exact (greedyChain_perm (orderGo_greedyChain d xs.length x xs rfl)).cons x

theorem promoteList_eq_none_of_mem :
    ∀ {ls : List RawLoc} {x : RawLoc}, x ∈ ls → promoteLocation x = none →
      promoteList ls = none := by
  intro ls
  induction ls with
  | nil => intro x h; cases h
  | cons r rs ih =>
    intro x hmem hx
    rcases List.mem_cons.1 hmem with rfl | h'
    · simp [promoteList, hx]
    · have hrs := ih h' hx
      cases hr : promoteLocation r <;> simp [promoteList, hr, hrs]

theorem promoteList_length :
    ∀ {ls : List RawLoc} {out : List LocationCreate},
      promoteList ls = some out → out.length = ls.length := by
  intro ls
  induction ls with
  | nil =>
    intro out h
    simp only [promoteList, Option.some.injEq] at h
    simp [← h]
  | cons r rs ih =>
    intro out h
    cases hr : promoteLocation r with
    | none => simp [promoteList, hr] at h
    | some l =>
      cases hrs : promoteList rs with
      | none => simp [promoteList, hr, hrs] at h
      | some ls' =>
        simp only [promoteList, hr, hrs, Option.some.injEq] at h
        simp [← h, ih hrs]

theorem assignOrders_length (tripId : ℕ) :
    ∀ (i : ℕ) (ls : List LocationCreate),
      (assignOrders tripId i ls).length = ls.length := by
  intro i ls
  induction ls generalizing i with
  | nil => rfl
  | cons l ls ih => simp [assignOrders, ih]

theorem validate_prediction_locations_length {pred : List RawLoc}
    {locs : List LocationCreate}
    (h : validate_prediction_locations pred = .ok locs) :
    locs.length = pred.length := by
  cases pred with
  | nil => simp [validate_prediction_locations] at h
  | cons r rest =>
    cases hp : promoteList (order_locations_by_distance (r :: rest)) with
    | none => simp [validate_prediction_locations, hp] at h
    | some ls =>
      simp only [validate_prediction_locations, hp, Except.ok.injEq] at h
      subst h
      rw [promoteList_length hp]
      exact (orderBy_perm havRaw (r :: rest)).length_eq

theorem distancesList_map_fst (la lo : ℚ) :
    ∀ {xs : List RawDict} {ds : List (RawDict × ℝ)},
      distancesList la lo xs = .ok ds → ds.map Prod.fst = xs := by
  intro xs
  induction xs with
  | nil =>
    intro ds h
    simp only [distancesList, Except.ok.injEq] at h
    simp [← h]
  | cons x xs ih =>
    intro ds h
    cases hla : x.latitude with
    | none => simp [distancesList, hla] at h
    | some xla =>
      cases hlo : x.longitude with
      | none => simp [distancesList, hla, hlo] at h
      | some xlo =>
        cases hrec : distancesList la lo xs with
        | error e => simp [distancesList, hla, hlo, hrec] at h
        | ok rest =>
          simp only [distancesList, hla, hlo, hrec, Except.ok.injEq] at h
          simp [← h, ih hrec]

theorem distancesList_ok_of_coords (la lo : ℚ) :
    ∀ (xs : List RawDict), (∀ x ∈ xs, HasCoords x) →
      ∃ ds, distancesList la lo xs = .ok ds := by
  intro xs
  induction xs with
  | nil =>
    intro _
    exact ⟨[], rfl⟩
  | cons x xs ih =>
    intro h
    have hx := h x (List.mem_cons_self _ _)
    obtain ⟨ds, hds⟩ := ih (fun y hy => h y (List.mem_cons_of_mem _ hy))
    cases hla : x.latitude with
    | none => exact absurd hla hx.1
    | some xla =>
      cases hlo : x.longitude with
      | none => exact absurd hlo hx.2
      | some xlo =>
        exact ⟨(x, haversine_distance la lo xla xlo) :: ds,
          by simp [distancesList, hla, hlo, hds]⟩

theorem distancesList_keyError (la lo : ℚ) :
    ∀ (xs : List RawDict), (∃ x ∈ xs, ¬HasCoords x) →
      distancesList la lo xs = .error .keyError := by
  intro xs
  induction xs with
  | nil =>
    intro h
    obtain ⟨x, hx, -⟩ := h
    cases hx
  | cons x xs ih =>
    intro h
    cases hla : x.latitude with
    | none => simp [distancesList, hla]
    | some xla =>
      cases hlo : x.longitude with
      | none => simp [distancesList, hla, hlo]
      | some xlo =>
        obtain ⟨y, hy, hnc⟩ := h
        rcases List.mem_cons.1 hy with rfl | hy'
        · exact absurd ⟨by simp [hla], by simp [hlo]⟩ hnc
        · simp [distancesList, hla, hlo, ih ⟨y, hy', hnc⟩]

theorem orderGoD_ok_perm :
    ∀ (fuel : ℕ) (last : RawDict) (rem : List RawDict),
      rem.length = fuel → HasCoords last → (∀ x ∈ rem, HasCoords x) →
      ∃ out, orderGoD fuel last rem = .ok out ∧ out.Perm rem := by
  intro fuel
  induction fuel with
  | zero =>
    intro last rem hlen _ _
    obtain rfl := List.length_eq_zero.1 hlen
    exact ⟨[], rfl, List.Perm.refl _⟩
  | succ n ih =>
    intro last rem hlen hlast hall
    match rem, hlen with
    | r :: rs, hlen =>
      cases hla : last.latitude with
      | none => exact absurd hla hlast.1
      | some la =>
        cases hlo : last.longitude with
        | none => exact absurd hlo hlast.2
        | some lo =>
          obtain ⟨ds, hds⟩ := distancesList_ok_of_coords la lo (r :: rs) hall
          have hmapfst := distancesList_map_fst la lo hds
          cases ds with
          | nil => simp at hmapfst
          | cons p ps =>
            have hcmem : (selectClosest Prod.snd p ps).1 ∈ r :: rs := by
              have hmem : selectClosest Prod.snd p ps ∈ p :: ps :=
                isFirstMin_mem (selectClosest_isFirstMin Prod.snd ps p)
              have hmap : (selectClosest Prod.snd p ps).1
                  ∈ (p :: ps).map Prod.fst :=
                List.mem_map_of_mem Prod.fst hmem
              rwa [hmapfst] at hmap
            have herlen :
                ((r :: rs).erase (selectClosest Prod.snd p ps).1).length = n := by
              rw [List.length_erase_of_mem hcmem, hlen]
              simp
            have herall : ∀ x ∈ (r :: rs).erase (selectClosest Prod.snd p ps).1,
                HasCoords x :=
              fun x hx => hall x (List.mem_of_mem_erase hx)
            obtain ⟨out, hout, hperm⟩ := ih (selectClosest Prod.snd p ps).1
              ((r :: rs).erase (selectClosest Prod.snd p ps).1) herlen
              (hall _ hcmem) herall
            refine ⟨(selectClosest Prod.snd p ps).1 :: out, ?_, ?_⟩
            · simp only [orderGoD, hla, hlo, hds, hout]
            · exact (hperm.cons _).trans (List.perm_cons_erase hcmem).symm

theorem orderGoD_keyError :
    ∀ (fuel : ℕ) (last : RawDict) (rem : List RawDict),
      rem.length = fuel → rem ≠ [] →
      (¬HasCoords last ∨ ∃ x ∈ rem, ¬HasCoords x) →
      orderGoD fuel last rem = .error .keyError := by
  intro fuel last rem hlen hne hbad
  match fuel, rem, hlen with
  | 0, rem, hlen => exact absurd (List.length_eq_zero.1 hlen) hne
  | n + 1, r :: rs, hlen =>
    cases hla : last.latitude with
    | none => simp [orderGoD, hla]
    | some la =>
      cases hlo : last.longitude with
      | none => simp [orderGoD, hla, hlo]
      | some lo =>
        have hbad' : ∃ x ∈ r :: rs, ¬HasCoords x := by
          rcases hbad with h | h
          · exact absurd ⟨by simp [hla], by simp [hlo]⟩ h
          · exact h
        simp [orderGoD, hla, hlo, distancesList_keyError la lo (r :: rs) hbad']

theorem promoteListD_eq_none_of_mem :
    ∀ {ls : List RawDict} {x : RawDict}, x ∈ ls → promoteLocationD x = none →
      promoteListD ls = none := by
  intro ls
  induction ls with
  | nil => intro x h; cases h
  | cons r rs ih =>
    intro x hmem hx
    rcases List.mem_cons.1 hmem with rfl | h'
    · simp [promoteListD, hx]
    · have hrs := ih h' hx
      cases hr : promoteLocationD r <;> simp [promoteListD, hr, hrs]

/-- On a record carrying both coordinate keys, promotion over general
raw dictionaries agrees with promotion over the coordinate-carrying
restriction. -/
theorem promoteLocationD_coords (r : RawDict) (la lo : ℚ)
    (hla : r.latitude = some la) (hlo : r.longitude = some lo) :
    promoteLocationD r = promoteLocation
      ⟨r.name, r.description, la, lo, r.address, r.city, r.country, r.ordIdx⟩ := by
  cases hn : r.name <;> simp [promoteLocationD, promoteLocation, hla, hlo, hn]

section RetrySteps

variable {model : String} {np : Option ℕ} {msgs : List Msg}
variable {script : ℕ → Outcome} {fuel attempt : ℕ} {wt : Option ℕ}
variable {sleeps : List ℕ} {reqs : List CompletionRequest}

theorem retryLoop_transient_step (hs : script attempt = .transient) :
    retryLoop model np msgs script (fuel + 1) attempt wt sleeps reqs
      = retryLoop model np msgs script fuel (attempt + 1)
          (some (backoff attempt)) (sleeps ++ [backoff attempt])
          (reqs ++ [completionRequest model msgs]) := by
  simp only [retryLoop, hs]

theorem retryLoop_fatal_step (hs : script attempt = .fatal) :
    retryLoop model np msgs script (fuel + 1) attempt wt sleeps reqs
      = ⟨.returned none, sleeps, reqs ++ [completionRequest model msgs]⟩ := by
  simp only [retryLoop, hs]

theorem retryLoop_ok_step {r : ResponseText} (hs : script attempt = .success r)
    (hshort : isShortPy np r.len = false) :
    retryLoop model np msgs script (fuel + 1) attempt wt sleeps reqs
      = ⟨.returned (some r), sleeps, reqs ++ [completionRequest model msgs]⟩ := by
  simp [retryLoop, hs, hshort]

theorem retryLoop_short_unbound_step {r : ResponseText}
    (hs : script attempt = .success r) (hshort : isShortPy np r.len = true) :
    retryLoop model np msgs script (fuel + 1) attempt none sleeps reqs
      = ⟨.nameError, sleeps, reqs ++ [completionRequest model msgs]⟩ := by
  simp [retryLoop, hs, hshort]

theorem retryLoop_short_stale_step {r : ResponseText} {w : ℕ}
    (hs : script attempt = .success r) (hshort : isShortPy np r.len = true) :
    retryLoop model np msgs script (fuel + 1) attempt (some w) sleeps reqs
      = retryLoop model np msgs script fuel (attempt + 1) (some w)
          (sleeps ++ [w]) (reqs ++ [completionRequest model msgs]) := by
  simp [retryLoop, hs, hshort]

end RetrySteps

theorem retryLoop_requests_length (model : String) (np : Option ℕ)
    (msgs : List Msg) (script : ℕ → Outcome) :
    ∀ (fuel attempt : ℕ) (wt : Option ℕ) (sleeps : List ℕ)
      (reqs : List CompletionRequest),
      (retryLoop model np msgs script fuel attempt wt sleeps reqs).requests.length
        ≤ reqs.length + fuel := by
  intro fuel
  induction fuel with
  | zero =>
    intro attempt wt sleeps reqs
    simp [retryLoop]
  | succ n ih =>
    intro attempt wt sleeps reqs
    have hstep : (reqs ++ [completionRequest model msgs]).length + n
        ≤ reqs.length + (n + 1) := by
      simp only [List.length_append, List.length_cons, List.length_nil]
      omega
    have hleaf : (reqs ++ [completionRequest model msgs]).length
        ≤ reqs.length + (n + 1) := by
      simp only [List.length_append, List.length_cons, List.length_nil]
      omega
    cases hs : script attempt with
    | success r =>
      cases hshort : isShortPy np r.len with
      | false =>
        rw [retryLoop_ok_step hs hshort]
        exact hleaf
      | true =>
        cases wt with
        | none =>
          rw [retryLoop_short_unbound_step hs hshort]
          exact hleaf
        | some w =>
          rw [retryLoop_short_stale_step hs hshort]
          exact le_trans (ih _ _ _ _) hstep
    | transient =>
      rw [retryLoop_transient_step hs]
      exact le_trans (ih _ _ _ _) hstep
    | fatal =>
      rw [retryLoop_fatal_step hs]
      exact hleaf

theorem retryLoop_requests_mem (model : String) (np : Option ℕ)
    (msgs : List Msg) (script : ℕ → Outcome) :
    ∀ (fuel attempt : ℕ) (wt : Option ℕ) (sleeps : List ℕ)
      (reqs : List CompletionRequest) (rq : CompletionRequest),
      rq ∈ (retryLoop model np msgs script fuel attempt wt sleeps reqs).requests →
      rq ∈ reqs ∨ rq = completionRequest model msgs := by
  intro fuel
  induction fuel with
  | zero =>
    intro attempt wt sleeps reqs rq h
    simp only [retryLoop] at h
    exact Or.inl h
  | succ n ih =>
    intro attempt wt sleeps reqs rq h
    have step : rq ∈ reqs ++ [completionRequest model msgs] →
        rq ∈ reqs ∨ rq = completionRequest model msgs := by
      intro h'
      rcases List.mem_append.1 h' with h1 | h2
      · exact Or.inl h1
      · exact Or.inr (List.mem_singleton.1 h2)
    have chain : rq ∈ reqs ++ [completionRequest model msgs]
          ∨ rq = completionRequest model msgs →
        rq ∈ reqs ∨ rq = completionRequest model msgs := by
      intro h'
      rcases h' with h1 | h2
      · exact step h1
      · exact Or.inr h2
    cases hs : script attempt with
    | success r =>
      cases hshort : isShortPy np r.len with
      | false =>
        rw [retryLoop_ok_step hs hshort] at h
        exact step h
      | true =>
        cases wt with
        | none =>
          rw [retryLoop_short_unbound_step hs hshort] at h
          exact step h
        | some w =>
          rw [retryLoop_short_stale_step hs hshort] at h
          exact chain (ih _ _ _ _ _ h)
    | transient =>
      rw [retryLoop_transient_step hs] at h
      exact chain (ih _ _ _ _ _ h)
    | fatal =>
      rw [retryLoop_fatal_step hs] at h
      exact step h

theorem clientStep_head {st : List Msg} {m : Msg} (hne : st ≠ [])
    (hh : st.head? = some m) (op : ClientOp) :
    clientStep st op ≠ [] ∧ (clientStep st op).head? = some m := by
  cases op with
  | predict trip tripType script =>
    have hlen : (st ++ [(⟨"user",
        .tripRequest trip.request_text trip.start_location
          (shownNumPlaces trip.num_places tripType)⟩ : Msg)]).length > 1 := by
      have := List.length_pos.2 hne
      simp
      omega
    have : clientStep st (.predict trip tripType script) = st := by
      simp only [clientStep, get_trip_prediction]
      rw [if_pos hlen, List.dropLast_concat]
    rw [this]
    exact ⟨hne, hh⟩
  | exclude prev excludeTxt =>
    have happ : st ++ [(⟨"user", .prevTrip prev.response_json⟩ : Msg),
        ⟨"user", .excludeText excludeTxt⟩,
        ⟨"user", .orderHint (hintNumPlaces prev)⟩]
        = ((st ++ [⟨"user", .prevTrip prev.response_json⟩,
            ⟨"user", .excludeText excludeTxt⟩]) ++
            [⟨"user", .orderHint (hintNumPlaces prev)⟩]) := by
      simp
    have happ2 : st ++ [(⟨"user", .prevTrip prev.response_json⟩ : Msg),
        ⟨"user", .excludeText excludeTxt⟩]
        = ((st ++ [⟨"user", .prevTrip prev.response_json⟩]) ++
            [⟨"user", .excludeText excludeTxt⟩]) := by
      simp
    have hlen : (st ++ [(⟨"user", .prevTrip prev.response_json⟩ : Msg),
        ⟨"user", .excludeText excludeTxt⟩,
        ⟨"user", .orderHint (hintNumPlaces prev)⟩]).length > 2 := by
      simp
    have hres : clientStep st (.exclude prev excludeTxt)
        = st ++ [⟨"user", .prevTrip prev.response_json⟩] := by
      simp only [clientStep, get_exlude_locations_prediction, if_pos hlen]
      rw [happ, List.dropLast_concat, happ2, List.dropLast_concat]
    rw [hres]
    cases st with
    | nil => exact absurd rfl hne
    | cons a as =>
      refine ⟨by simp, ?_⟩
      simpa using hh

/-! ## Concrete fixtures -/

/-- A valid raw location dictionary. -/
def locA : RawLoc := ⟨some "A", none, 1, 1, none, none, none, none⟩

/-- A valid general raw dictionary. -/
def dictA : RawDict := ⟨some "A", none, some 1, some 1, none, none, none, none⟩

/-- A general raw dictionary with out-of-range `latitude = 200`. -/
def dictBad200 : RawDict :=
  ⟨some "B", none, some 200, some 2, none, none, none, none⟩

/-- A general raw dictionary missing its `latitude` key. -/
def dictNoLat : RawDict := ⟨some "C", none, none, some 3, none, none, none, none⟩

/-- A single location object as a JSON value. -/
def jLocX : JVal := .obj [("name", .str "X")]

/-- A successful response shorter than a hint of 5. -/
def shortResp : ResponseText := ⟨3, some (.arr [])⟩

/-- A successful response longer than a hint of 5. -/
def okResp : ResponseText := ⟨9, some (.arr [])⟩

/-- Attempt outcomes: transient failure, then a short response, then a
long one. -/
def script4 : ℕ → Outcome := fun k =>
  if k = 0 then .transient
  else if k = 1 then .success shortResp
  else .success okResp

/-- A previous `by_place` trip row with `num_places = 3`. -/
def prevTrip0 : TripRec := ⟨1, .arr [], some 3, "by_place"⟩

/-- A plain trip-creation request without start location or place
count. -/
def req0 : TripCreateRequest := ⟨"show me Paris", none, none⟩

/-- The trip attempt assembled from the single raw location `locA`. -/
def tripA : TripAttempt :=
  ⟨none, 1, [locA], "several_places",
   [⟨some 1, "A", none, 1, 1, none, none, none, some 1⟩]⟩

/-! ## Claims -/

/-- C1: `GeoOrdering.order` (`order_locations_by_distance`) satisfies
its contract: the empty input yields the empty output; for a non-empty
input the first input element is kept as the anchor, the remaining
elements form a greedy chain — every subsequent element is the
not-yet-placed element with minimum haversine great-circle distance
(sphere radius 6371 km, degree inputs converted to radians) from the
last-placed element, ties broken by input order (first minimal
element) — and the output is a permutation of the input (same
multiset). -/
theorem claim1_geo_ordering_contract :
    order_locations_by_distance [] = []
    ∧ ∀ (x : RawLoc) (xs : List RawLoc),
        ∃ out : List RawLoc,
          order_locations_by_distance (x :: xs) = x :: out
          ∧ GreedyChain havRaw x xs out
          ∧ (x :: out).Perm (x :: xs) := by
  refine ⟨rfl, fun x xs => ⟨orderGo havRaw xs.length x xs, rfl, ?_, ?_⟩⟩
  · exact orderGo_greedyChain havRaw xs.length x xs rfl
  · exact (greedyChain_perm (orderGo_greedyChain havRaw xs.length x xs rfl)).cons x

/-- C2: the bounded-retry call makes at most 4 attempts, each issuing
the completion request with JSON-object response format at temperature
0.7 over the same accumulated message list; with transient failures on
every attempt it sleeps 1s, 2s, 4s (then 8s, capped) and returns
`None`; with transient failures on the first `k` attempts and a
non-retryable error on attempt `k + 1` it returns `None` immediately
after `k + 1` attempts, having slept only the first `k` backoffs. -/
theorem claim2_bounded_retry_schedule (model : String) (np : Option ℕ)
    (msgs : List Msg) (script : ℕ → Outcome) :
    (get_completions_create_response model np msgs script).requests.length ≤ 4
    ∧ (∀ rq ∈ (get_completions_create_response model np msgs script).requests,
        rq.response_format = "json_object" ∧ rq.temperature = 7 / 10
          ∧ rq.messages = msgs ∧ rq.model = model)
    ∧ ((∀ k, k < 4 → script k = .transient) →
        get_completions_create_response model np msgs script
          = ⟨.returned none, [1, 2, 4, 8],
             List.replicate 4 (completionRequest model msgs)⟩)
    ∧ (∀ k, k ≤ 3 → (∀ j, j < k → script j = .transient) →
        script k = .fatal →
        get_completions_create_response model np msgs script
          = ⟨.returned none, (List.range k).map backoff,
             List.replicate (k + 1) (completionRequest model msgs)⟩) := by
  refine ⟨?_, ?_, ?_, ?_⟩
  · have h := retryLoop_requests_length model np msgs script 4 0 none [] []
    simpa [get_completions_create_response] using h
  · intro rq hrq
    rcases retryLoop_requests_mem model np msgs script 4 0 none [] [] rq hrq
      with h | h
    · exact absurd h (List.not_mem_nil rq)
    · subst h
      exact ⟨rfl, rfl, rfl, rfl⟩
  · intro h
    have h0 := h 0 (by norm_num)
    have h1 := h 1 (by norm_num)
    have h2 := h 2 (by norm_num)
    have h3 := h 3 (by norm_num)
    calc get_completions_create_response model np msgs script
        = retryLoop model np msgs script (3 + 1) 0 none [] [] := rfl
      _ = retryLoop model np msgs script (2 + 1) 1 (some 1) [1]
            [completionRequest model msgs] := retryLoop_transient_step h0
      _ = retryLoop model np msgs script (1 + 1) 2 (some 2) [1, 2]
            [completionRequest model msgs, completionRequest model msgs] :=
          retryLoop_transient_step h1
      _ = retryLoop model np msgs script (0 + 1) 3 (some 4) [1, 2, 4]
            [completionRequest model msgs, completionRequest model msgs,
             completionRequest model msgs] := retryLoop_transient_step h2
      _ = retryLoop model np msgs script 0 4 (some 8) [1, 2, 4, 8]
            [completionRequest model msgs, completionRequest model msgs,
             completionRequest model msgs, completionRequest model msgs] :=
          retryLoop_transient_step h3
      _ = ⟨.returned none, [1, 2, 4, 8],
           List.replicate 4 (completionRequest model msgs)⟩ := rfl
  · intro k hk hprev hfatal
    interval_cases k
    · calc get_completions_create_response model np msgs script
          = retryLoop model np msgs script (3 + 1) 0 none [] [] := rfl
        _ = ⟨.returned none, (List.range 0).map backoff,
             List.replicate (0 + 1) (completionRequest model msgs)⟩ :=
            retryLoop_fatal_step hfatal
    · have h0 := hprev 0 (by norm_num)
      calc get_completions_create_response model np msgs script
          = retryLoop model np msgs script (3 + 1) 0 none [] [] := rfl
        _ = retryLoop model np msgs script (2 + 1) 1 (some 1) [1]
              [completionRequest model msgs] := retryLoop_transient_step h0
        _ = ⟨.returned none, (List.range 1).map backoff,
             List.replicate (1 + 1) (completionRequest model msgs)⟩ :=
            retryLoop_fatal_step hfatal
    · have h0 := hprev 0 (by norm_num)
      have h1 := hprev 1 (by norm_num)
      calc get_completions_create_response model np msgs script
          = retryLoop model np msgs script (3 + 1) 0 none [] [] := rfl
        _ = retryLoop model np msgs script (2 + 1) 1 (some 1) [1]
              [completionRequest model msgs] := retryLoop_transient_step h0
        _ = retryLoop model np msgs script (1 + 1) 2 (some 2) [1, 2]
              [completionRequest model msgs, completionRequest model msgs] :=
            retryLoop_transient_step h1
        _ = ⟨.returned none, (List.range 2).map backoff,
             List.replicate (2 + 1) (completionRequest model msgs)⟩ :=
            retryLoop_fatal_step hfatal
    · have h0 := hprev 0 (by norm_num)
      have h1 := hprev 1 (by norm_num)
      have h2 := hprev 2 (by norm_num)
      calc get_completions_create_response model np msgs script
          = retryLoop model np msgs script (3 + 1) 0 none [] [] := rfl
        _ = retryLoop model np msgs script (2 + 1) 1 (some 1) [1]
              [completionRequest model msgs] := retryLoop_transient_step h0
        _ = retryLoop model np msgs script (1 + 1) 2 (some 2) [1, 2]
              [completionRequest model msgs, completionRequest model msgs] :=
            retryLoop_transient_step h1
        _ = retryLoop model np msgs script (0 + 1) 3 (some 4) [1, 2, 4]
              [completionRequest model msgs, completionRequest model msgs,
               completionRequest model msgs] := retryLoop_transient_step h2
        _ = ⟨.returned none, (List.range 3).map backoff,
             List.replicate (3 + 1) (completionRequest model msgs)⟩ :=
            retryLoop_fatal_step hfatal

/-- Witness for C2: with a transient failure on every attempt, the
call sleeps 1s, 2s, 4s, 8s, issues four identical requests and returns
`None`. -/
theorem claim2_witness :
    get_completions_create_response "m" (some 5) [] (fun _ => .transient)
      = ⟨.returned none, [1, 2, 4, 8],
         List.replicate 4 (completionRequest "m" [])⟩ :=
  (claim2_bounded_retry_schedule "m" (some 5) [] (fun _ => .transient)).2.2.1
    (fun _ _ => rfl)

/-- C3 (code bug): `get_exlude_locations_prediction` appends the three
user messages and then calls `self.get_completions_create_response()`
without the required positional argument `num_places`, so every call
raises `TypeError` and never returns a parsed location list; the
`finally` block still pops exactly the last two appended messages,
leaving the "previous trip" message in the conversation state. -/
theorem claim3_exclusion_raises_type_error :
    get_exlude_locations_prediction [sysMsg "by_place"] prevTrip0 "drop X"
      = (.error .typeError,
         [sysMsg "by_place", ⟨"user", .prevTrip (.arr [])⟩]) := rfl

/-- C4 (code bug): a short response on the very first attempt reads the
unbound local `wait_time` and crashes with `NameError` instead of
sleeping and retrying; when a prior transient failure has bound
`wait_time`, a short response does sleep (the stale value) and retry
with the same message list. -/
theorem claim4_short_response_name_error :
    get_completions_create_response "m" (some 5) []
        (fun _ => .success shortResp)
      = ⟨.nameError, [], [completionRequest "m" []]⟩
    ∧ get_completions_create_response "m" (some 5) [] script4
      = ⟨.returned (some okResp), [1, 1],
         List.replicate 3 (completionRequest "m" [])⟩ :=
  ⟨rfl, rfl⟩

/-- C5 (amended): for every non-empty batch whose records all carry
latitude and longitude keys, if any record fails promotion to a
`LocationCreate` (missing name, out-of-range coordinate such as
`latitude = 200`, or field too long), the entire batch fails with the
400 "Invalid location data" error carrying the first element of the
raw input list (not necessarily the offending record) and zero records
are accepted; a batch of two or more records in which some record
lacks a coordinate key instead crashes with an uncaught `KeyError`
raised by the ordering step, before promotion runs. -/
theorem claim5_validator_atomicity (r : RawDict) (rest : List RawDict) :
    ((∀ x ∈ r :: rest, HasCoords x) →
      (∃ x ∈ r :: rest, promoteLocationD x = none) →
      validate_prediction_locations_dict (r :: rest)
        = .error (.http 400 (.invalidLocationDict r)))
    ∧ (rest ≠ [] → (∃ x ∈ r :: rest, ¬HasCoords x) →
      validate_prediction_locations_dict (r :: rest) = .error .keyError) := by
  constructor
  · intro hcoords hbad
    obtain ⟨out, hgo, hperm⟩ := orderGoD_ok_perm rest.length r rest rfl
      (hcoords r (List.mem_cons_self _ _))
      (fun x hx => hcoords x (List.mem_cons_of_mem _ hx))
    have horder : order_locations_by_distance_dict (r :: rest)
        = .ok (r :: out) := by
      simp [order_locations_by_distance_dict, hgo]
    obtain ⟨x, hx, hpx⟩ := hbad
    have hxout : x ∈ r :: out := ((hperm.cons r).mem_iff).2 hx
    have hnone : promoteListD (r :: out) = none :=
      promoteListD_eq_none_of_mem hxout hpx
    simp [validate_prediction_locations_dict, horder, hnone]
  · intro hne hbad
    have hbad' : ¬HasCoords r ∨ ∃ x ∈ rest, ¬HasCoords x := by
      obtain ⟨x, hx, hnc⟩ := hbad
      rcases List.mem_cons.1 hx with rfl | h'
      · exact Or.inl hnc
      · exact Or.inr ⟨x, h', hnc⟩
    have hgo := orderGoD_keyError rest.length r rest rfl hne hbad'
    simp [validate_prediction_locations_dict,
      order_locations_by_distance_dict, hgo]

/-- Witness for C5: a coordinate-carrying batch with an out-of-range
record fails atomically with the 400 error carrying its first element,
and a two-record batch with a missing `latitude` key raises
`KeyError`. -/
theorem claim5_witness :
    validate_prediction_locations_dict [dictA, dictBad200]
      = .error (.http 400 (.invalidLocationDict dictA))
    ∧ validate_prediction_locations_dict [dictA, dictNoLat]
      = .error .keyError :=
  ⟨(claim5_validator_atomicity dictA [dictBad200]).1 (by decide) (by decide),
   (claim5_validator_atomicity dictA [dictNoLat]).2 (by decide) (by decide)⟩

/-- Counterexample for C5 as stated: the 400 error carries the first
*input* element — a record that passes promotion — not the first
offending one; and a batch containing a record missing its required
`latitude` key fails with an uncaught `KeyError`, not with the
invalid-location error. -/
theorem claim5_first_element_not_offending :
    validate_prediction_locations_dict [dictA, dictBad200]
      = .error (.http 400 (.invalidLocationDict dictA))
    ∧ promoteLocationD dictA ≠ none
    ∧ promoteLocationD dictBad200 = none
    ∧ dictA ≠ dictBad200
    ∧ validate_prediction_locations_dict [dictA, dictNoLat]
      = .error .keyError
    ∧ Failure.keyError ≠ .http 400 (.invalidLocationDict dictNoLat) :=
  ⟨rfl, by decide, by decide, by decide, rfl, by decide⟩

/-- C6 (amended): a raw payload that is not valid JSON does not raise a
distinct parse failure — `parse_response` catches the decode error and
returns the empty list, the same value produced for a decoded empty
list — and the empty location list then fails validation with the
single 400 "No locations generated" error; the two cases are not
distinguishable. -/
theorem claim6_parse_error_collapses (n : ℕ) :
    parse_response (some ⟨n, none⟩) = .ok (.arr [])
    ∧ (∀ m : ℕ, parse_response (some ⟨n, none⟩)
        = parse_response (some ⟨m, some (.arr [])⟩))
    ∧ validate_prediction_locations ([] : List RawLoc)
        = .error (.http 400 .noLocations) :=
  ⟨rfl, fun _ => rfl, rfl⟩

/-- Counterexample for C6 as stated: an unparsable payload does not
fail with a distinct `ParseError` — it yields the same `.ok` empty
list as a parsed-but-empty payload, so the two are indistinguishable
downstream. -/
theorem claim6_not_distinct_cex :
    parse_response (some ⟨2, none⟩) = .ok (.arr [])
    ∧ parse_response (some ⟨2, none⟩)
        = parse_response (some ⟨2, some (.arr [])⟩)
    ∧ validate_prediction_locations ([] : List RawLoc)
        = .error (.http 400 .noLocations) :=
  ⟨rfl, rfl, rfl⟩

/-- C7 (code bug): when the bounded-retry call exhausts all attempts
and returns `None`, `get_trip_prediction` hands `None` to
`parse_response`, where `json.loads(None)` raises an uncaught
`TypeError` — the pipeline crashes instead of surfacing the 400 "No
locations generated" failure. -/
theorem claim7_retry_exhaustion_crashes :
    get_trip_prediction [sysMsg "several_places"] req0 "several_places"
        (fun _ => .transient)
      = (.error .typeError, [sysMsg "several_places"])
    ∧ Failure.typeError ≠ Failure.http 400 .noLocations :=
  ⟨rfl, by decide⟩

/-- C8: the three accepted JSON shapes are equivalent given equivalent
content — an object with a `"locations"` key holding the list `L`, the
bare list `L`, and (when `L` is a single location object without a
`"locations"` key) that object alone all parse to the same normalized
list `L`. -/
theorem claim8_shape_equivalence (L : List JVal) (n m k : ℕ)
    (fields : List (String × JVal))
    (hf : fields.lookup "locations" = some (.arr L)) :
    parse_response (some ⟨n, some (.obj fields)⟩) = .ok (.arr L)
    ∧ parse_response (some ⟨m, some (.arr L)⟩) = .ok (.arr L)
    ∧ (∀ xf : List (String × JVal), L = [.obj xf] →
        xf.lookup "locations" = none →
        parse_response (some ⟨k, some (.obj xf)⟩) = .ok (.arr L)) := by
  refine ⟨?_, rfl, ?_⟩
  · simp [parse_response, hf]
  · intro xf hL hnone
    subst hL
    simp [parse_response, hnone]

/-- Witness for C8: the three shapes around a single location object
normalize to the same one-element list. -/
theorem claim8_witness :
    parse_response (some ⟨7, some (.obj [("locations", .arr [jLocX])])⟩)
      = .ok (.arr [jLocX])
    ∧ parse_response (some ⟨7, some (.arr [jLocX])⟩) = .ok (.arr [jLocX])
    ∧ parse_response (some ⟨7, some jLocX⟩) = .ok (.arr [jLocX]) := by
  have h := claim8_shape_equivalence [jLocX] 7 7 7
    [("locations", .arr [jLocX])] rfl
  exact ⟨h.1, h.2.1, h.2.2 [("name", .str "X")] rfl rfl⟩

/-- C9: every trip attempt assembled by the pipeline — fresh
(`parent_id = none`) or exclusion refinement (`parent_id = some id`) —
satisfies `num_places = len(locations) = len(response_json)`. -/
theorem claim9_trip_attempt_invariant (tripId : ℕ) (parent : Option ℕ)
    (tripType : String) (pred : List RawLoc) (t : TripAttempt)
    (h : create_trip_pipeline tripId parent tripType pred = .ok t) :
    t.num_places = t.locations.length
    ∧ t.locations.length = t.response_json.length := by
  cases hv : validate_prediction_locations pred with
  | error e => simp [create_trip_pipeline, hv] at h
  | ok locs =>
    cases hc : create_locations_for_trip tripId locs with
    | error e => simp [create_trip_pipeline, hv, hc] at h
    | ok persisted =>
      simp only [create_trip_pipeline, hv, hc, Except.ok.injEq] at h
      subst h
      have hlen : persisted.length = locs.length := by
        by_cases ht : tripId = 0
        · simp [create_locations_for_trip, ht] at hc
        · rw [create_locations_for_trip, if_neg ht] at hc
          cases hc
          exact assignOrders_length tripId 0 locs
      have hvl := validate_prediction_locations_length hv
      exact ⟨by simp [hlen, hvl], by simp [hlen, hvl]⟩

/-- Witness for C9: the pipeline over the single raw location `locA`
assembles `tripA`, which satisfies the invariant. -/
theorem claim9_witness :
    create_trip_pipeline 1 none "several_places" [locA] = .ok tripA
    ∧ tripA.num_places = tripA.locations.length
    ∧ tripA.locations.length = tripA.response_json.length := by
  have hpipe : create_trip_pipeline 1 none "several_places" [locA]
      = .ok tripA := rfl
  exact ⟨hpipe,
    claim9_trip_attempt_invariant 1 none "several_places" [locA] tripA hpipe⟩

/-- C10: on one `OpenAIChatClientTrip` instance, after any sequence of
trip-prediction and exclusion-prediction calls (each completing
normally or by exception), the message list is non-empty and still
starts with the system-prompt message chosen at construction. -/
theorem claim10_conversation_invariant (tripType : String)
    (ops : List ClientOp) :
    runClient [sysMsg tripType] ops ≠ []
    ∧ (runClient [sysMsg tripType] ops).head? = some (sysMsg tripType) := by
  suffices h : ∀ (ops' : List ClientOp) (st : List Msg), st ≠ [] →
      st.head? = some (sysMsg tripType) →
      runClient st ops' ≠ []
        ∧ (runClient st ops').head? = some (sysMsg tripType) by
    exact h ops [sysMsg tripType] (by simp) rfl
  intro ops'
  induction ops' with
  | nil =>
    intro st h1 h2
    exact ⟨h1, h2⟩
  | cons op rest ih =>
    intro st h1 h2
    have hstep := clientStep_head h1 h2 op
    exact ih (clientStep st op) hstep.1 hstep.2

end Locations
